import Mathlib

/-
Shallow embedding of src/decoder/opus.rs (OpusDecoder for rodio).

Modelling conventions:
* u8 / u32 values are Nat; byte values carry a hypothesis b < 256 where it matters.
  No arithmetic here can overflow u32: sample_rate < 2^32 and the smallest divisor
  produced by the cast below is 16, so the buffer length is below 2^31.
* The f64 arithmetic of load_next_chunk is modelled exactly over the rationals.
  The f64 literals 2.5, 5.0, 10.0, 20.0, 40.0, 60.0 and 1000.0 are all exactly
  representable; the quotients 1000/2.5, 1000/5, 1000/10, 1000/20, 1000/40 are
  exact in f64 (results 400, 200, 100, 50, 25), and the f64 value of 1000/60 lies
  strictly between 16 and 17, so the Rust cast as u32 (truncation toward zero)
  yields 16, the same value as the rational floor. Hence the rational model with
  floor reproduces the f64 computation on every reachable input.
* Fallible operations return Option / a dedicated outcome type; a Rust panic or a
  non-returning call is the outcome none.
-/

namespace RodioOpus

/-- Stream metadata produced by the metadata reader (magnum OpusMeta): channel
count and the sample rate declared in the identification header. -/
structure OpusMeta where
  channel_count : Nat
  sample_rate : Nat
deriving DecidableEq

/-- The three bit fields of the TOC byte, as read MSB-first by BitReader:
read_u8 5 is the top five bits, read_u8 1 the next bit, read_u8 2 the bottom
two bits; the frame count applies the max 1 floor from the source. -/
structure TocFields where
  config : Nat
  stereo : Nat
  frameCount : Nat
deriving DecidableEq

/-- Embeds the three BitReader reads on packet.data 0: for a byte b < 256,
read_u8 5 = b / 8, read_u8 1 = b / 4 % 2, read_u8 2 = b % 4, and the source
applies .max 1 to the frame-count code. -/
def parseToc (b : Nat) : TocFields :=
  { config := b / 8, stereo := b / 4 % 2, frameCount := max (b % 4) 1 }

/-- Embeds the frame_size match of load_next_chunk (values in milliseconds,
as exact rationals standing for the f64 literals); none models the
panic "Unsupported frame size" arm. -/
def frame_size : Nat → Option ℚ
  | 0 | 4 | 8 | 12 | 14 | 18 | 22 | 26 | 30 => some 10
  | 1 | 5 | 9 | 13 | 15 | 19 | 23 | 27 | 31 => some 20
  | 2 | 6 | 10 => some 40
  | 3 | 7 | 11 => some 60
  | 16 | 20 | 24 | 28 => some (5 / 2)
  | 17 | 21 | 25 | 29 => some 5
  | _ => none

/-- The Rust cast as u32 applied to a nonnegative f64: truncation toward zero,
i.e. the floor for nonnegative arguments. -/
def castU32 (q : ℚ) : Nat := (Int.floor q).toNat

/-- Embeds the buffer-length computation of load_next_chunk (lines 115-120):
sample_rate / (1000.0 / frame_size) as u32 * f * (if s == 0 then 1 else 2),
where the outer division is u32 (truncating) division. Returns none when the
frame_size match would panic. -/
def chunkBufferLen (sample_rate tocByte : Nat) : Option Nat :=
  match frame_size (parseToc tocByte).config with
  | none => none
  | some fs =>
      some (sample_rate / castU32 (1000 / fs) * (parseToc tocByte).frameCount *
        (if (parseToc tocByte).stereo = 0 then 1 else 2))

/-- The buffer length exactly as load_next_chunk computes it from the decoder
state: the rate is the one stored in self.metadata.sample_rate. -/
def loadBufferLen (m : OpusMeta) (tocByte : Nat) : Option Nat :=
  chunkBufferLen m.sample_rate tocByte

/-- Helper: castU32 at a rational whose floor is known. -/
lemma castU32_eq (q : ℚ) (n : Nat) (h : Int.floor q = (n : ℤ)) : castU32 q = n := by
  simp [castU32, h]

lemma castU32_ten : castU32 (1000 / 10) = 100 := castU32_eq _ _ (by norm_num)

lemma castU32_twenty : castU32 (1000 / 20) = 50 := castU32_eq _ _ (by norm_num)

lemma castU32_forty : castU32 (1000 / 40) = 25 := castU32_eq _ _ (by norm_num)

lemma castU32_sixty : castU32 (1000 / 60) = 16 := castU32_eq _ _ (by norm_num)

lemma castU32_two_half : castU32 (1000 / (5 / 2)) = 400 := castU32_eq _ _ (by norm_num)

lemma castU32_five : castU32 (1000 / 5) = 200 := castU32_eq _ _ (by norm_num)

/-- Derived Nat-level table: for each configuration, the u32 divisor that
load_next_chunk computes as (1000.0 / frame_size) as u32. -/
def frameDivisor : Nat → Option Nat
  | 0 | 4 | 8 | 12 | 14 | 18 | 22 | 26 | 30 => some 100
  | 1 | 5 | 9 | 13 | 15 | 19 | 23 | 27 | 31 => some 50
  | 2 | 6 | 10 => some 25
  | 3 | 7 | 11 => some 16
  | 16 | 20 | 24 | 28 => some 400
  | 17 | 21 | 25 | 29 => some 200
  | _ => none

/-- Bridge: the divisor computed from the rational frame_size model equals the
Nat-level table, configuration by configuration. -/
lemma frameDivisor_eq (c : Nat) :
    (frame_size c).map (fun fs => castU32 (1000 / fs)) = frameDivisor c := by
  unfold frame_size frameDivisor
  split <;>
    simp [castU32_ten, castU32_twenty, castU32_forty, castU32_sixty,
      castU32_two_half, castU32_five]

/-- Nat-level form of the buffer length, derived from chunkBufferLen via
frameDivisor_eq; used for concrete evaluation. -/
lemma chunkBufferLen_eq_table (sample_rate tocByte : Nat) :
    chunkBufferLen sample_rate tocByte =
      (frameDivisor (parseToc tocByte).config).map
        (fun d => sample_rate / d * (parseToc tocByte).frameCount *
          (if (parseToc tocByte).stereo = 0 then 1 else 2)) := by
  unfold chunkBufferLen
  have h := frameDivisor_eq (parseToc tocByte).config
  cases hfs : frame_size (parseToc tocByte).config with
  | none => rw [hfs] at h; simp [← h]
  | some fs => rw [hfs] at h; simp [← h]

example : chunkBufferLen 48000 24 = some 3000 := by
  rw [chunkBufferLen_eq_table]; decide

example : chunkBufferLen 48000 108 = some 1920 := by
  rw [chunkBufferLen_eq_table]; decide

/-- Possible outcomes of one call to load_next_chunk once a packet has been
read successfully: a Rust panic, the InvalidAudioStream error, or reaching the
decode call with a zero-filled buffer of the stated length (the decode call
itself is an external capability and may still fail afterwards). -/
inductive LoadOutcome
  | panic
  | err
  | ok (bufLen : Nat)
deriving DecidableEq

/-- Embeds the body of load_next_chunk applied to one successfully read packet
payload. The slice packet.data[0..1] panics when the payload is empty; the
frame_size match panics on an unmatched configuration; otherwise the zeroed
buffer of the computed length is handed to the decode capability. -/
def load_next_chunk (sample_rate : Nat) (packetData : List Nat) : LoadOutcome :=
  match packetData with
  | [] => LoadOutcome.panic
  | b :: _ =>
      match chunkBufferLen sample_rate b with
      | none => LoadOutcome.panic
      | some n => LoadOutcome.ok n

/-- Decoder state visible to the Source facade: the metadata record plus the
current sample buffer and read cursor. Samples are i16 values, modelled as
integers. -/
structure DecoderModel where
  metadata : OpusMeta
  buffer : List Int
  bufferPos : Nat

/-- Embeds Source::current_frame_len: the constant Some(240). -/
def current_frame_len (_d : DecoderModel) : Option Nat := some 240

/-- Embeds Source::channels: the channel count from the metadata record. -/
def channels (d : DecoderModel) : Nat := d.metadata.channel_count

/-- Embeds Source::sample_rate: the constant 48000. -/
def source_sample_rate (_d : DecoderModel) : Nat := 48000

/-- Embeds Source::total_duration: the constant None (duration in some unit,
never produced). -/
def total_duration (_d : DecoderModel) : Option Nat := none

/-- A seekable byte stream: a read position plus the underlying bytes. Seek
changes only the position; reads never change the content. -/
structure ByteStream where
  pos : Nat
  content : List Nat
deriving DecidableEq

/-- Embeds OpusDecoder::new (lines 27-38). The metadata reader is an external
collaborator, abstracted as a function that returns the parsed metadata (or
none on failure) together with the advanced stream. new records the current
position via seek(Current 0), runs the reader, and on failure seeks back to
the recorded position and returns the stream to the caller (inr); on success
it returns the metadata with the consumed stream (inl, standing for the
constructed decoder). -/
def new (readMeta : ByteStream → Option OpusMeta × ByteStream) (data : ByteStream) :
    (OpusMeta × ByteStream) ⊕ ByteStream :=
  let stream_pos := data.pos
  match readMeta data with
  | (some m, d) => Sum.inl (m, d)
  | (none, d) => Sum.inr { d with pos := stream_pos }

/-- Iterator state: the sample buffer, the read cursor, and the remaining
outcomes of future load_next_chunk calls. The container plus decode capability
is abstracted as the list loads: each call to load_next_chunk consumes the head
(none means the call fails with InvalidAudioStream, some buf means it succeeds
and replaces the buffer with buf); an empty list means every further call
fails, as at end of stream. -/
structure IterState where
  buffer : List Int
  bufferPos : Nat
  loads : List (Option (List Int))
deriving DecidableEq

/-- Embeds Iterator::next (lines 161-184), with explicit fuel standing for the
call stack: the result none means the call did not return within fuel nested
calls (the Rust recursion self.next() consumes one fuel unit). A returned value
is some (result, state): result none is Rust None (end of stream), result
some v is Rust Some(v). An out-of-bounds buffer index would also yield none,
so a some result certifies that every buffer access was in bounds. -/
def next : Nat → IterState → Option (Option Int × IterState)
  | 0, _ => none
  | fuel + 1, s =>
      let s1 : IterState :=
        if s.buffer.isEmpty then
          match s.loads with
          | some buf :: rest => { buffer := buf, bufferPos := 0, loads := rest }
          | none :: rest => { buffer := [], bufferPos := s.bufferPos, loads := rest }
          | [] => { buffer := [], bufferPos := s.bufferPos, loads := [] }
        else s
      let s2 : IterState := { s1 with bufferPos := s1.bufferPos + 1 }
      if s2.bufferPos > s2.buffer.length then
        next fuel { s2 with buffer := [] }
      else if s2.buffer.isEmpty then
        some (none, s2)
      else
        match s2.buffer.get? (s2.bufferPos - 1) with
        | some v => some (some v, s2)
        | none => none

/-- Runs next repeatedly, n calls, each with fuel 1 (so only the
non-recursive path of next may be taken), collecting the produced samples.
Fails (none) if any call runs out of fuel, returns Rust None, or would access
the buffer out of bounds. -/
def runN : Nat → IterState → Option (List Int × IterState)
  | 0, s => some ([], s)
  | n + 1, s =>
      match next 1 s with
      | some (some v, s1) =>
          match runN n s1 with
          | some (vs, s2) => some (v :: vs, s2)
          | _ => none
      | _ => none

/-- Reference definition for the refinement claim C3, written from the words of
the specification (the published Opus TOC table): configurations 0-11
(SILK-only, three bandwidth sub-bands of four) yield 10/20/40/60 ms in order
within each sub-band; configurations 12-15 (Hybrid) yield 10/20 ms
alternating; configurations 16-31 (CELT-only, four sub-bands of four) yield
2.5/5/10/20 ms in order within each sub-band. -/
def publishedFrameDuration (c : Nat) : Option ℚ :=
  if c < 12 then some (List.getD [10, 20, 40, 60] (c % 4) 0)
  else if c < 16 then some (List.getD [10, 20] (c % 2) 0)
  else if c < 32 then some (List.getD [5 / 2, 5, 10, 20] (c % 4) 0)
  else none

set_option maxRecDepth 4000 in
/-- Claim C3: for every configuration number 0 through 31, the frame-size
match of load_next_chunk returns exactly the frame duration of the published
Opus table. -/
theorem frame_size_matches_published_table (c : Nat) (hc : c < 32) :
    frame_size c = publishedFrameDuration c := by
  interval_cases c <;> rfl

/-- Claim C3 witness at configuration 17 (CELT-only, 5 ms). -/
theorem frame_size_matches_published_table_witness :
    frame_size 17 = publishedFrameDuration 17 :=
  frame_size_matches_published_table 17 (by decide)

/-- Claim C6: for every possible first byte of a packet, the configuration
number read from its top five bits is below 32 and hits an explicit arm of the
frame-size match, so the panic arm (modelled by none) is unreachable. -/
theorem frame_size_panic_unreachable (b : Nat) (hb : b < 256) :
    (parseToc b).config < 32 ∧ (frame_size (parseToc b).config).isSome := by
  have hc : (parseToc b).config < 32 := by
    show b / 8 < 32
    omega
  have hall : ∀ c, c < 32 → (frame_size c).isSome := by decide
  exact ⟨hc, hall _ hc⟩

/-- Claim C6 witness at byte 255. -/
theorem frame_size_panic_unreachable_witness :
    (parseToc 255).config < 32 ∧ (frame_size (parseToc 255).config).isSome :=
  frame_size_panic_unreachable 255 (by decide)

/-- Claim C9: for every TOC byte, the resolved frame count is the maximum of
the bottom-two-bits code and 1; in particular a code of 0 resolves to 1. -/
theorem frameCount_is_max_code_one (b : Nat) :
    (parseToc b).frameCount = max (b % 4) 1 ∧ (b % 4 = 0 → (parseToc b).frameCount = 1) := by
  refine ⟨rfl, fun h => ?_⟩
  simp [parseToc, h]

/-- Claim C9 witness at byte 8 (frame-count code 0). -/
theorem frameCount_is_max_code_one_witness :
    (parseToc 8).frameCount = max (8 % 4) 1 ∧ (parseToc 8).frameCount = 1 :=
  ⟨(frameCount_is_max_code_one 8).1, (frameCount_is_max_code_one 8).2 (by decide)⟩

/-- Claim C10: at every decoder state, the Source facade reports
current_frame_len as the constant Some 240 (whatever the buffer holds),
sample_rate as the constant 48000 (whatever the metadata declares),
total_duration as none, and channels as the channel count of the stream
metadata. -/
theorem source_facade_constants (d : DecoderModel) :
    current_frame_len d = some 240 ∧ source_sample_rate d = 48000 ∧
      total_duration d = none ∧ channels d = d.metadata.channel_count :=
  ⟨rfl, rfl, rfl, rfl⟩

/-- Helper: for every byte below 256 the buffer-length computation succeeds,
whatever the sample rate. -/
lemma chunkBufferLen_isSome (rate b : Nat) (hb : b < 256) :
    (chunkBufferLen rate b).isSome := by
  rw [chunkBufferLen_eq_table]
  have hc : (parseToc b).config < 32 := by
    show b / 8 < 32
    omega
  have hall : ∀ c, c < 32 → (frameDivisor c).isSome := by decide
  have := hall _ hc
  cases hd : frameDivisor (parseToc b).config with
  | none => rw [hd] at this; simp at this
  | some d => simp

/-- Claim C7: on an empty packet payload, load_next_chunk panics at the TOC
slice packet.data[0..1] rather than returning the InvalidAudioStream error;
on any payload whose first byte exists (hence is below 256) it does not
panic. -/
theorem load_next_chunk_empty_packet_panics (rate : Nat) :
    load_next_chunk rate [] = LoadOutcome.panic ∧
      load_next_chunk rate [] ≠ LoadOutcome.err ∧
      ∀ b rest, b < 256 → load_next_chunk rate (b :: rest) ≠ LoadOutcome.panic := by
  refine ⟨rfl, by simp [load_next_chunk], fun b rest hb => ?_⟩
  have h := chunkBufferLen_isSome rate b hb
  unfold load_next_chunk
  cases hl : chunkBufferLen rate b with
  | none => rw [hl] at h; simp at h
  | some n => simp only [hl]; simp

/-- Claim C7 witness: empty payload panics; payload starting with byte 108
does not. -/
theorem load_next_chunk_empty_packet_panics_witness :
    load_next_chunk 48000 [] = LoadOutcome.panic ∧
      load_next_chunk 48000 [108] ≠ LoadOutcome.panic :=
  ⟨(load_next_chunk_empty_packet_panics 48000).1,
    (load_next_chunk_empty_packet_panics 48000).2.2 108 [] (by decide)⟩

/-- Claim C8: the buffer length computed during a chunk load is a function of
the sample rate declared in the stream metadata, not of the fixed 48000 rate
reported by the Source facade: two metadata records that differ only in the
declared rate give different buffer lengths for the same TOC byte (byte 108:
configuration 13, 20 ms, stereo, one frame), while the facade reports 48000
for every decoder state. -/
theorem buffer_sized_from_declared_rate :
    (∀ (m : OpusMeta) (b : Nat), loadBufferLen m b = chunkBufferLen m.sample_rate b) ∧
      loadBufferLen { channel_count := 2, sample_rate := 24000 } 108 = some 960 ∧
      loadBufferLen { channel_count := 2, sample_rate := 48000 } 108 = some 1920 ∧
      (∀ d : DecoderModel, source_sample_rate d = 48000) := by
  refine ⟨fun m b => rfl, ?_, ?_, fun d => rfl⟩ <;>
    · show chunkBufferLen _ 108 = _
      rw [chunkBufferLen_eq_table]
      decide

/-- Helper: the frame-size match only ever returns one of the six table
values. -/
lemma frame_size_values {c : Nat} {fs : ℚ} (h : frame_size c = some fs) :
    fs = 10 ∨ fs = 20 ∨ fs = 40 ∨ fs = 60 ∨ fs = 5 / 2 ∨ fs = 5 := by
  unfold frame_size at h
  split at h <;> simp_all

/-- Claim C2 counterexample: at sample rate 48000 with TOC byte 24
(configuration 3, a 60 ms SILK frame, mono, one frame) the code computes
48000 / ((1000.0 / 60.0) as u32) = 48000 / 16 = 3000, while the exact value
sample_rate * frame_duration_ms / 1000 * frame_count * channels_per_frame is
48000 * 60 / 1000 * 1 * 1 = 2880. -/
theorem chunk_buffer_len_60ms_mismatch :
    chunkBufferLen 48000 24 = some 3000 ∧
      ((3000 : ℚ) ≠ (48000 : ℚ) * 60 / 1000 * 1 * 1) := by
  constructor
  · rw [chunkBufferLen_eq_table]; decide
  · norm_num

/-- Claim C2 (amended): for every TOC byte whose frame duration is one of
2.5, 5, 10, 20, 40 ms (every table value except 60 ms) and every sample rate
divisible by the integer divisor 1000 / duration (400, 200, 100, 50, 25; all
standard Opus rates qualify), the buffer length computed by load_next_chunk
equals sample_rate * frame_duration_ms / 1000 * frame_count *
channels_per_frame exactly, as an exact integer. For 60 ms frames the code
divides by the truncated divisor 16 instead (see the counterexample). -/
theorem chunk_buffer_len_exact (rate b : Nat) (fs : ℚ)
    (hfs : frame_size (parseToc b).config = some fs) (h60 : fs ≠ 60)
    (hdvd : castU32 (1000 / fs) ∣ rate) :
    chunkBufferLen rate b =
      some (rate / castU32 (1000 / fs) * (parseToc b).frameCount *
        (if (parseToc b).stereo = 0 then 1 else 2)) ∧
      ((rate / castU32 (1000 / fs) * (parseToc b).frameCount *
          (if (parseToc b).stereo = 0 then 1 else 2) : Nat) : ℚ) =
        (rate : ℚ) * fs / 1000 * ((parseToc b).frameCount : ℚ) *
          (if (parseToc b).stereo = 0 then 1 else 2) := by
  constructor
  · unfold chunkBufferLen
    rw [hfs]
  · have key : ∀ d : Nat, castU32 (1000 / fs) = d → (d : ℚ) * fs = 1000 → d ≠ 0 →
        ((rate / castU32 (1000 / fs) * (parseToc b).frameCount *
            (if (parseToc b).stereo = 0 then 1 else 2) : Nat) : ℚ) =
          (rate : ℚ) * fs / 1000 * ((parseToc b).frameCount : ℚ) *
            (if (parseToc b).stereo = 0 then 1 else 2) := by
      intro d hd hprod hdne
      rw [hd] at hdvd ⊢
      push_cast
      rw [Nat.cast_div hdvd (by exact_mod_cast hdne)]
      have hfs1000 : fs = 1000 / (d : ℚ) := by
        field_simp
        linarith [hprod]
      rw [hfs1000]
      have hdq : (d : ℚ) ≠ 0 := by exact_mod_cast hdne
      field_simp
      ring_nf
    rcases frame_size_values hfs with h | h | h | h | h | h <;> subst h
    · exact key 100 castU32_ten (by norm_num) (by norm_num)
    · exact key 50 castU32_twenty (by norm_num) (by norm_num)
    · exact key 25 castU32_forty (by norm_num) (by norm_num)
    · exact absurd rfl h60
    · exact key 400 castU32_two_half (by norm_num) (by norm_num)
    · exact key 200 castU32_five (by norm_num) (by norm_num)

/-- Claim C2 witness at sample rate 48000 and TOC byte 108 (configuration 13,
20 ms, stereo, one frame): buffer length 1920 = 48000 * 20 / 1000 * 1 * 2. -/
theorem chunk_buffer_len_exact_witness :
    chunkBufferLen 48000 108 =
      some (48000 / castU32 (1000 / 20) * (parseToc 108).frameCount *
        (if (parseToc 108).stereo = 0 then 1 else 2)) ∧
      ((48000 / castU32 (1000 / 20) * (parseToc 108).frameCount *
          (if (parseToc 108).stereo = 0 then 1 else 2) : Nat) : ℚ) =
        (48000 : ℚ) * 20 / 1000 * ((parseToc 108).frameCount : ℚ) *
          (if (parseToc 108).stereo = 0 then 1 else 2) :=
  chunk_buffer_len_exact 48000 108 20 (by rfl) (by norm_num)
    (by rw [castU32_twenty]; decide)

/-- Claim C5: for every metadata reader that only reads (never changes the
underlying bytes) and every stream on which it fails, the probe constructor
new seeks the stream back to the recorded position and returns it, so the
returned stream is byte-identical to the input, position included. -/
theorem new_rewinds_on_failure (readMeta : ByteStream → Option OpusMeta × ByteStream)
    (data : ByteStream) (hread : ∀ s, ((readMeta s).2).content = s.content)
    (hfail : (readMeta data).1 = none) :
    new readMeta data = Sum.inr data := by
  have hc := hread data
  unfold new
  cases hd : readMeta data with
  | mk o d =>
    rw [hd] at hfail hc
    simp only at hfail hc
    subst hfail
    simp only
    obtain ⟨p, cont⟩ := data
    obtain ⟨p2, cont2⟩ := d
    simp only at hc
    subst hc
    rfl

/-- Claim C5 witness: a concrete failing reader that advances the position by
seven leaves a concrete stream untouched. -/
theorem new_rewinds_on_failure_witness :
    new (fun s => (none, { s with pos := s.pos + 7 })) ⟨3, [1, 2, 3]⟩ =
      Sum.inr ⟨3, [1, 2, 3]⟩ :=
  new_rewinds_on_failure (fun s => (none, { s with pos := s.pos + 7 }))
    ⟨3, [1, 2, 3]⟩ (fun _ => rfl) rfl

/-- Claim C1 (refuted by the code): once the buffer is empty and every
remaining chunk-load attempt fails (in particular when the container is
exhausted and loads is empty), next never returns: for every amount of fuel,
the call runs out of fuel, because each pass increments bufferPos, finds it
above the empty-buffer length, clears the already empty buffer and recurses.
The None branch of the source is unreachable and the recursion is unbounded. -/
theorem next_diverges_at_exhaustion (fuel pos : Nat)
    (loads : List (Option (List Int))) (hl : ∀ l ∈ loads, l = none) :
    next fuel { buffer := [], bufferPos := pos, loads := loads } = none := by
  induction fuel generalizing pos loads with
  | zero => rfl
  | succ n ih =>
    cases loads with
    | nil =>
      have hstep : next (n + 1) { buffer := [], bufferPos := pos, loads := [] } =
          next n { buffer := [], bufferPos := pos + 1, loads := [] } := by
        simp [next]
      rw [hstep]
      exact ih (pos + 1) [] (by simp)
    | cons hd tl =>
      have hhd : hd = none := hl hd (List.mem_cons_self hd tl)
      subst hhd
      have hstep : next (n + 1) { buffer := [], bufferPos := pos, loads := none :: tl } =
          next n { buffer := [], bufferPos := pos + 1, loads := tl } := by
        simp [next]
      rw [hstep]
      exact ih (pos + 1) tl (fun l hm => hl l (List.mem_cons_of_mem _ hm))

/-- Claim C1 witness: with no loads left and fuel 5, next does not return. -/
theorem next_diverges_at_exhaustion_witness :
    next 5 { buffer := [], bufferPos := 0, loads := [] } = none :=
  next_diverges_at_exhaustion 5 0 [] (by simp)

/-- Helper: one call to next inside a loaded chunk needs no recursion and
returns the sample at the cursor, in bounds, advancing only the cursor. -/
lemma next_in_chunk (c : List Int) (pos : Nat) (ks : List (Option (List Int)))
    (h : pos < c.length) :
    next 1 { buffer := c, bufferPos := pos, loads := ks } =
      some (some (c.get ⟨pos, h⟩),
        { buffer := c, bufferPos := pos + 1, loads := ks }) := by
  have hne : c.isEmpty = false := by
    cases c
    · simp at h
    · rfl
  have hle : ¬(pos + 1 > c.length) := by omega
  have hg : c.get? pos = some (c.get ⟨pos, h⟩) := List.get?_eq_get h
  simp [next, hne, hle, hg, List.getElem?_eq_getElem h, List.get_eq_getElem]

/-- Helper: starting at cursor pos inside a chunk, n calls with pos + n within
the buffer produce the n buffer elements from pos on, in order, touching
neither the buffer nor the remaining loads. -/
lemma runN_in_chunk (c : List Int) (ks : List (Option (List Int))) :
    ∀ n pos, pos + n ≤ c.length →
      runN n { buffer := c, bufferPos := pos, loads := ks } =
        some ((c.drop pos).take n,
          { buffer := c, bufferPos := pos + n, loads := ks }) := by
  intro n
  induction n with
  | zero => intro pos _; simp [runN]
  | succ m ih =>
    intro pos hpos
    have hlt : pos < c.length := by omega
    have hstep := next_in_chunk c pos ks hlt
    have hrec := ih (pos + 1) (by omega)
    unfold runN
    simp only [hstep, hrec]
    have hdrop : c.drop pos = c.get ⟨pos, hlt⟩ :: c.drop (pos + 1) := by
      rw [List.get_eq_getElem]
      exact List.drop_eq_getElem_cons hlt
    rw [hdrop]
    simp only [List.take_succ_cons]
    have harith : pos + 1 + m = pos + (m + 1) := by omega
    rw [harith]

/-- Claim C4: for every successfully loaded chunk c of length L at least 1
(buffer replaced by c, cursor reset to 0), the next L calls to next return
exactly the L elements of c in order, every access in bounds (an
out-of-bounds access or a recursive retry would surface as none), and the
remaining chunk loads are not touched until those L samples are out. -/
theorem chunk_yields_exactly_buffer (c : List Int) (ks : List (Option (List Int)))
    (_hne : c ≠ []) :
    runN c.length { buffer := c, bufferPos := 0, loads := ks } =
      some (c, { buffer := c, bufferPos := c.length, loads := ks }) := by
  have := runN_in_chunk c ks c.length 0 (by omega)
  simpa using this

/-- Claim C4 witness: the chunk [5, 7] yields exactly the samples 5 then 7. -/
theorem chunk_yields_exactly_buffer_witness :
    runN 2 { buffer := [5, 7], bufferPos := 0, loads := [] } =
      some ([5, 7], { buffer := [5, 7], bufferPos := 2, loads := [] }) :=
  chunk_yields_exactly_buffer [5, 7] [] (by simp)

end RodioOpus
